import Mathlib

/-!
Verification development for the colorcodely backend's recording-ingestion
and notification pipeline.  The Python source is shallowly embedded:
pure text-processing functions (`normalize_common_mishears`,
`extract_colors`, `clean_transcription`'s stop-phrase truncation,
`build_announcement_message`, the notification templates, the subscriber
filters) become Lean functions over `String` / `List Char`, and the
stateful webhook pipeline (`should_send_today_guard`,
`process_recording_with_whisper`, `send_to_all_subscribers`) becomes a
function of an explicit environment record (the results of the external
calls: persistence reads, audio download, transcription, subscriber
store) and the module-level mutable `LAST_SUCCESSFUL_SEND_DATE_CST`,
returning the observable effects of one run (downloads attempted, admin
notifications, persistence appends, subscriber sends, final guard state).

Python's regex word-character class is modelled for ASCII
(`[a-zA-Z0-9_]`); all vocabulary entries and all concrete inputs used
below are ASCII, and no theorem depends on the classification of
non-ASCII characters.
-/

/-- Python `str.strip()`: drop whitespace from both ends. -/
def pyStrip (s : String) : String :=
  String.mk (((s.data.dropWhile Char.isWhitespace).reverse.dropWhile Char.isWhitespace).reverse)

/-- Python `str.upper()` (ASCII). -/
def pyUpper (s : String) : String := String.mk (s.data.map Char.toUpper)

/-- Python `str.lower()` (ASCII). -/
def pyLower (s : String) : String := String.mk (s.data.map Char.toLower)

/-- Python `s.startswith(p)`. -/
def startsWithStr (p s : String) : Bool := decide (s.data.take p.data.length = p.data)

/-- Regex word character `\w`, modelled for ASCII: `[a-zA-Z0-9_]`. -/
def wordChar (c : Char) : Bool := c.isAlphanum || c == '_'

/-- Character of `t` at index `n`, with a space (a non-word character)
standing in for "out of range", which is how the regex boundary test
treats the ends of the string. -/
def charAtD (t : List Char) (n : Nat) : Char := (t.drop n).headD ' '

/-- Tests whether `pat` occurs as a (plain, not word-bounded) substring of `t`
starting at index `i`.  Models Python `pat in t` / `t.split(pat)`
occurrence positions. -/
def substrAt (pat t : List Char) (i : Nat) : Bool :=
  decide ((t.drop i).take pat.length = pat)

/-- Models `re.search(rf"\b{pat}\b", t)` succeeding at index `i`, for a
pattern that begins and ends with word characters (true of every
vocabulary entry): the pattern text occurs at `i`, the previous
character (if any) is not a word character, and the character right
after the match (if any) is not a word character. -/
def wordMatchAt (pat t : List Char) (i : Nat) : Bool :=
  substrAt pat t i &&
  (decide (i = 0) || !wordChar (charAtD t (i - 1))) &&
  !wordChar (charAtD t (i + pat.length))

/-- Least index `i` in `[start, start+fuel)` with `p i = true`, scanning
left to right; the computable core of `re.search`. -/
def findFirstAux (p : Nat → Bool) : Nat → Nat → Option Nat
  | _, 0 => none
  | start, fuel + 1 => if p start then some start else findFirstAux p (start + 1) fuel

/-- Index of the leftmost plain-substring occurrence of `pat` in `t`
(Python `t.split(pat)[0]` boundary / `pat in t`). -/
def firstSubstr (pat t : List Char) : Option Nat :=
  findFirstAux (fun i => substrAt pat t i) 0 (t.length + 1)

/-- Index of the leftmost whole-word occurrence of `pat` in `t`
(`re.search(rf"\b{re.escape(pat)}\b", t)`, `m.start()`). -/
def firstWordMatch (pat t : List Char) : Option Nat :=
  findFirstAux (fun i => wordMatchAt pat t i) 0 (t.length + 1)

/-- Number of starting indices at which `pat` occurs as a substring of `t`. -/
def countSubstr (pat t : List Char) : Nat :=
  ((List.range (t.length + 1)).filter (fun j => substrAt pat t j)).length

/-- From `app.py` lines 53-62: the authoritative color vocabulary `VALID_COLORS`. -/
def VALID_COLORS : List String :=
  ["amber", "apple", "aqua", "banana", "beige", "black", "blue", "bone", "bronze", "brown",
   "burgundy", "charcoal", "chartreuse", "cherry", "chestnut", "copper", "coral", "cream", "creme",
   "crimson", "eggplant", "emerald", "fuchsia", "ginger", "gold", "gray", "green", "hazel", "indigo",
   "ivory", "jade", "jasmine", "khaki", "lavender", "lemon", "lilac", "lime", "magenta", "mahogany",
   "maroon", "mauve", "mint", "navy", "olive", "onyx", "opal", "orange", "orchid", "peach", "pearl",
   "periwinkle", "pink", "platinum", "plum", "purple", "raspberry", "red", "rose", "ruby", "sage",
   "sapphire", "sienna", "silver", "tan", "tangerine", "teal", "turquoise", "vanilla", "violet",
   "watermelon", "white", "yellow"]

/-- Whole-word match of `pat` at the head of `t`, where `prev` is the
character of the original string immediately before `t` (or `none` at
the string start); used by the `re.sub` scan. -/
def wordMatchHere (pat : List Char) (prev : Option Char) (t : List Char) : Bool :=
  decide (t.take pat.length = pat) &&
  (match prev with
   | none => true
   | some c => !wordChar c) &&
  !wordChar (charAtD t pat.length)

/-- Models the `re.sub(rf"\b{pat}\b", repl, ...)` scan: walk the text left to right;
at a whole-word occurrence of `pat`, emit `repl` and continue after the
matched region of the original text (the character before the resumption
point is the last character of `pat`).  `fuel` is an upper bound on the
remaining text length; the caller supplies `t.length`, which the scan
never exhausts, so the `0` case is unreachable padding that makes the
recursion structural. -/
def subWordAux (pat repl : List Char) : Nat → Option Char → List Char → List Char
  | 0, _, t => t
  | _ + 1, _, [] => []
  | fuel + 1, prev, c :: rest =>
    if wordMatchHere pat prev (c :: rest) then
      repl ++ subWordAux pat repl fuel (some (pat.getLastD c)) (rest.drop (pat.length - 1))
    else
      c :: subWordAux pat repl fuel (some c) rest

/-- Models `re.sub(rf"\b{pat}\b", repl, t)` for a pattern starting and ending
with word characters. -/
def subWord (pat repl t : List Char) : List Char := subWordAux pat repl t.length none t

/-- Python `text.split()`: split on whitespace runs, dropping empties. -/
def splitWSAux : List Char → List Char → List (List Char)
  | [], acc => if acc.isEmpty then [] else [acc.reverse]
  | c :: rest, acc =>
    if c.isWhitespace then
      if acc.isEmpty then splitWSAux rest [] else acc.reverse :: splitWSAux rest []
    else
      splitWSAux rest (c :: acc)

/-- Python `" ".join(text.split())`: collapse whitespace runs to single spaces. -/
def collapseWS (t : List Char) : List Char := List.intercalate [' '] (splitWSAux t [])

/-- The substitution table of `normalize_common_mishears` (`app.py` lines 128-133),
applied in source order. -/
def mishear_subs : List (List Char × List Char) :=
  [("lilac mall".data, "lilac mauve".data),
   ("rolls".data, "rose".data),
   ("a plant".data, "eggplant".data),
   ("8 plant".data, "eggplant".data),
   ("egg plant".data, "eggplant".data),
   ("creme".data, "cream".data)]

/-- Embeds `app.py` `normalize_common_mishears` (lines 114-135): empty text is
returned as is; otherwise collapse whitespace, lowercase, and apply the
whole-word substitution table in order. -/
def normalize_common_mishears (s : String) : String :=
  if s = "" then s
  else
    String.mk
      (mishear_subs.foldl (fun acc pr => subWord pr.1 pr.2 acc)
        ((collapseWS s.data).map Char.toLower))

/-- The seen-set de-duplication loop of `extract_colors` (`app.py` lines
165-168), kept on the `(position, color)` pairs: emit each color name the
first time it appears, in list order. -/
def dedupPairs : List (Nat × String) → List String → List (Nat × String)
  | [], _ => []
  | p :: rest, seen =>
    if p.2 ∈ seen then dedupPairs rest seen else p :: dedupPairs rest (p.2 :: seen)

/-- From `app.py` lines 157-161: for each vocabulary color, the position of its
first whole-word occurrence in the normalized text, in vocabulary order. -/
def colorPositions (t : List Char) : List (Nat × String) :=
  VALID_COLORS.filterMap (fun c => (firstWordMatch c.data t).map (fun i => (i, c)))

/-- Order on `(position, color)` pairs used by `positions.sort(key=lambda x: x[0])`. -/
def posLe (a b : Nat × String) : Prop := a.1 ≤ b.1

instance : DecidableRel posLe := fun a b => Nat.decLe a.1 b.1

instance : IsTotal (Nat × String) posLe := ⟨fun a b => Nat.le_total a.1 b.1⟩

instance : IsTrans (Nat × String) posLe := ⟨fun _ _ _ => Nat.le_trans⟩

/-- Embeds `app.py` `extract_colors` (lines 138-170): falsy input yields `[]`;
otherwise normalize, find each color's first whole-word position, sort by
position (stably, as Python's `list.sort` does), de-duplicate by color
name, and uppercase. -/
def extract_colors (s : String) : List String :=
  if s = "" then []
  else
    (dedupPairs
        ((colorPositions (normalize_common_mishears s).data).insertionSort posLe) []).map
      (fun p => pyUpper p.2)

/-- The matcher `extract_colors` applied to an optional text: Python's
`if not transcribed_text: return []` also absorbs `None`. -/
def extractColorsOpt : Option String → List String
  | none => []
  | some s => extract_colors s

/-- The datetime value read by `now_cst()`, restricted to the fields
`day_and_date_line` consumes via `strftime`: weekday name (`%A`),
month, day, year.  The ambient clock of the Python code is passed
explicitly in the embedding. -/
structure DateTimeCST where
  weekdayName : String
  month : Nat
  day : Nat
  year : Nat
deriving DecidableEq

/-- Zero-padded two-digit field of `strftime` (`%m`, `%d`). -/
def pad2 (n : Nat) : String := if n < 10 then "0" ++ toString n else toString n

/-- Embeds `app.py` `day_and_date_line` (lines 84-87):
`f"{dt.strftime('%A').upper()} {dt.strftime('%m/%d/%Y')}"`. -/
def day_and_date_line (dt : DateTimeCST) : String :=
  pyUpper dt.weekdayName ++ " " ++ pad2 dt.month ++ "/" ++ pad2 dt.day ++ "/" ++ toString dt.year

/-- The testing-center display name hard-coded in
`build_announcement_message` (`app.py` line 178). -/
def app_testing_center : String := "City of Huntsville, AL Municipal Court Probation Office"

/-- Python `", ".join(l)`-style join. -/
def joinSep (sep : String) : List String → String
  | [] => ""
  | [s] => s
  | s :: rest => s ++ sep ++ joinSep sep rest

/-- Embeds `app.py` `build_announcement_message` (lines 173-195): subject, email
body and SMS body; an empty color list renders as `NO CODES CONFIRMED`. -/
def build_announcement_message (dt : DateTimeCST) (colors_list : List String) :
    String × String × String :=
  let header := day_and_date_line dt
  let codes := if colors_list.isEmpty then "NO CODES CONFIRMED" else joinSep ", " colors_list
  let tail := "\n\nTESTING CENTER:\n" ++ app_testing_center ++
    "\n\nThe color codes announced at 256-427-7808 are:\n" ++ codes
  ("Color Code Announcement — " ++ header, header ++ tail, header ++ tail)

/-- Embeds `notification_templates.py` `color_day_notification` (lines 1-29). -/
def color_day_notification (date_str testing_center announcement_phone color_codes : String) :
    String × String :=
  (pyStrip "ColorCodely Notification for City of Huntsville, AL Municipal Court Probation Office",
   pyStrip ("\nColor Code Notification – Powered by ColorCodely!\n\n📅 DATE: " ++ date_str ++
     "\n\n🏛️ TESTING CENTER: " ++ testing_center ++
     "\n\n📞 ANNOUNCEMENT PHONE: " ++ announcement_phone ++
     "\n\n🎨 COLOR CODES:\n" ++ color_codes ++
     "\n\nPlease report to drug screen if your color is called.\n"))

/-- Embeds `notification_templates.py` `no_color_day_notification` (lines 32-60). -/
def no_color_day_notification (date_str testing_center announcement_phone : String) :
    String × String :=
  (pyStrip "ℹ️ ColorCodely Update — No Color Codes Announced Today",
   pyStrip ("\nColor Code Update – Powered by ColorCodely!\n\n📅 DATE: " ++ date_str ++
     "\n\n🏛️ TESTING CENTER: " ++ testing_center ++
     "\n\n📞 ANNOUNCEMENT PHONE: " ++ announcement_phone ++
     "\n\n🚫 COLOR CODES:\nNo color codes were announced today.\n\n" ++
     "ℹ️ This typically indicates the testing center is closed or no testing is required for today.\n" ++
     "Please follow your probation instructions and resume checking on the next scheduled day.\n"))

/-- Embeds `app.py` `is_valid_email` (lines 89-95). -/
def is_valid_email (email : String) : Bool :=
  if email = "" then false
  else
    let e := pyLower (pyStrip email)
    if e = "email" then false
    else e.data.contains '@' && e.data.contains '.'

/-- Embeds `app.py` `is_valid_phone` (lines 97-102). -/
def is_valid_phone (phone : String) : Bool :=
  if phone = "" then false
  else
    let p := pyStrip phone
    startsWithStr "+" p && decide (p.length ≥ 10)

/-- One row of the `Subscribers` sheet as returned by
`sheets.get_all_subscribers` (columns A-D; there is no active column in
this store). -/
structure SubscriberRec where
  full_name : String
  email : String
  cell_number : String
  testing_center : String
deriving DecidableEq

/-- An observable delivery dispatched by the pipeline. -/
inductive SendEvent where
  | sms (phone body : String)
  | emailMsg (addr subject body : String)
deriving DecidableEq

/-- The per-subscriber body of the `send_to_all_subscribers` loop
(`app.py` lines 415-423): dispatch an SMS and/or an email for the
subscriber's addresses when they pass validation. -/
def subscriber_sends (subject email_body sms_body : String) (sub : SubscriberRec) :
    List SendEvent :=
  let phone := pyStrip sub.cell_number
  let email := pyStrip sub.email
  (if is_valid_phone phone then [SendEvent.sms phone sms_body] else []) ++
  (if is_valid_email email then
      [SendEvent.emailMsg email subject
        ("Hello " ++ (if sub.full_name = "" then "there" else sub.full_name) ++
          ",\n\n" ++ email_body ++ "\n")]
    else [])

/-- Embeds `app.py` `send_to_all_subscribers` (lines 408-423): a failing
subscriber-store read is caught and replaced by the empty list; each
subscriber is then processed in turn.  The function's Python return
value is `None`; its observable effect is the list of dispatched sends. -/
def send_to_all_subscribers (subsResult : Except Unit (List SubscriberRec))
    (subject email_body sms_body : String) : List SendEvent :=
  let subscribers := match subsResult with
    | Except.error _ => []
    | Except.ok l => l
  (subscribers.map (subscriber_sends subject email_body sms_body)).flatten

/-- Embeds `app.py` `should_send_today_guard` (lines 385-405), as a function of
the module-level `LAST_SUCCESSFUL_SEND_DATE_CST`, today's CST date
string, and the result of the `get_latest_transcription()` call (`ok
none` when the log has no rows, `ok (some (date, text))` for the last
row, `error` when the read raises).  Returns the admit decision and the
updated module-level date.  A raising persistence read is swallowed
(`except Exception: pass`) and the guard admits. -/
def should_send_today_guard (lastSent : Option String) (today : String)
    (latest : Except Unit (Option (String × String))) : Bool × Option String :=
  if lastSent = some today then (false, lastSent)
  else
    match latest with
    | Except.ok (some (lastDate, _)) =>
      if !decide (lastDate = "") && startsWithStr today lastDate then (false, some today)
      else (true, lastSent)
    | Except.ok none => (true, lastSent)
    | Except.error _ => (true, lastSent)

/-- The external-call results consumed by one
`process_recording_with_whisper` run: today's CST date and datetime, the
persistence-log read used by the guard, the audio download outcome, the
transcription outcome (the `__OPENAI_ERROR__`-prefixed payload travels
as a successful string, as in the source), whether the persistence
append succeeds, and the subscriber-store read. -/
structure PipelineEnv where
  today : String
  dt : DateTimeCST
  sheetsLatest : Except Unit (Option (String × String))
  download : Except Unit Unit
  transcribe : Except Unit String
  saveOk : Bool
  subscribers : Except Unit (List SubscriberRec)

/-- Observable outcome of one `process_recording_with_whisper` run. -/
structure RunResult where
  downloaded : Bool
  adminNotified : Bool
  saved : List String
  sends : List SendEvent
  lastSentAfter : Option String
deriving DecidableEq

/-- Embeds `app.py` `process_recording_with_whisper` (lines 439-493): guard
check first (before any download); failed download, transcription
exception, `__OPENAI_ERROR__` payload, or an empty extracted color list
each notify the admin only and stop; otherwise the transcription is
appended (append failures are logged and ignored), the announcement is
built and fanned out, and `LAST_SUCCESSFUL_SEND_DATE_CST` is set. -/
def process_recording_with_whisper (lastSent : Option String) (env : PipelineEnv) : RunResult :=
  let g := should_send_today_guard lastSent env.today env.sheetsLatest
  if !g.1 then ⟨false, false, [], [], g.2⟩
  else
    match env.download with
    | Except.error _ => ⟨true, true, [], [], g.2⟩
    | Except.ok _ =>
      match env.transcribe with
      | Except.error _ => ⟨true, true, [], [], g.2⟩
      | Except.ok text =>
        if startsWithStr "__OPENAI_ERROR__" text then ⟨true, true, [], [], g.2⟩
        else
          let colors := extract_colors text
          if colors.isEmpty then ⟨true, true, [], [], g.2⟩
          else
            let saved := if env.saveOk then [text] else []
            let msg := build_announcement_message env.dt colors
            ⟨true, false, saved,
              send_to_all_subscribers env.subscribers msg.1 msg.2.1 msg.2.2,
              some env.today⟩

/-- From `transcribe_and_log.py` lines 199-206: the subscriber emails for a
run, filtered to rows of length at least 5 with a nonempty email, a
testing-center cell equal to the run's center, and an active cell whose
upper-cased trim is `"YES"`. -/
def emailsFromRows (center : String) (rows : List (List String)) : List String :=
  (rows.filter (fun r =>
      decide (r.length ≥ 5) &&
      !decide (pyStrip (r.getD 1 "") = "") &&
      decide (pyStrip (r.getD 3 "") = center) &&
      decide (pyUpper (pyStrip (r.getD 4 "")) = "YES"))).map
    (fun r => pyStrip (r.getD 1 ""))

/-- From `send_transcription_email.py` lines 89-103: the sequential send loop
with no per-recipient exception handling.  `fails` tells which
recipients' `send_message` raises; the unhandled exception aborts the
loop, so the recipients actually sent to are the longest failure-free
prefix. -/
def send_loop (fails : String → Bool) : List String → List String
  | [] => []
  | e :: rest => if fails e then [] else e :: send_loop fails rest

/-- From `transcribe_and_log.py` line 78: the configured stop phrase. -/
def stop_phrase : List Char := "you must report to drug screen.".data

/-- Embeds `transcribe_and_log.py` `clean_transcription` lines 78-80, the
stop-phrase truncation step:
`if stop_phrase in text: text = text.split(stop_phrase)[0] + stop_phrase`. -/
def truncate_at_stop (t : List Char) : List Char :=
  match firstSubstr stop_phrase t with
  | none => t
  | some i => t.take i ++ stop_phrase

/-- A concrete datetime for counterexample runs. -/
def dt0 : DateTimeCST := ⟨"Saturday", 12, 13, 2025⟩

/-- The same calendar date with the weekday name differently cased;
`day_and_date_line` renders both identically. -/
def dtLowerSat : DateTimeCST := ⟨"saturday", 12, 13, 2025⟩

/-- A subscriber row with valid contact addresses whose stored
`testing_center` differs from the center hard-coded into the app's
announcements. -/
def subMismatch : SubscriberRec :=
  ⟨"Ada", "ada@example.com", "+12345678901", "Madison County Office of Alternative Sentencing"⟩

/-- A run whose guard read of the persistence log raises (log store
unreachable) while everything downstream succeeds. -/
def envFailOpen : PipelineEnv :=
  ⟨"2025-06-01", dt0, Except.error (), Except.ok (), Except.ok "red", true,
   Except.ok [subMismatch]⟩

/-- A run whose transcription succeeds but contains no color names. -/
def envNoColors : PipelineEnv :=
  ⟨"2025-06-01", dt0, Except.ok none, Except.ok (), Except.ok "hello world", true,
   Except.ok [subMismatch]⟩

/-- A run whose persistence log already holds a today-dated
Transcription Record (as after a send by a previous process). -/
def envLogToday : PipelineEnv :=
  ⟨"2025-06-01", dt0, Except.ok (some ("2025-06-01", "colors red")), Except.ok (),
   Except.ok "red", true, Except.ok [subMismatch]⟩

/-- A looping IVR transcript: the stop phrase occurs twice. -/
def loopTranscript : List Char :=
  "colors red. you must report to drug screen. colors red. you must report to drug screen.".data

/-- A failure oracle for the send loop: the second recipient's send raises. -/
def failsSecond (s : String) : Bool := s == "b@x.com"

/-- Concrete subscriber-sheet rows for `transcribe_and_log.py`'s filter:
one active matching subscriber, one inactive one. -/
def rowsEx : List (List String) :=
  [["Ada", "ada@example.com", "+12345678901", "CTR", "yes"],
   ["Bob", "bob@example.com", "+12345678902", "CTR", "NO"]]

theorem findFirstAux_eq_some {p : Nat → Bool} :
    ∀ {f s i : Nat}, findFirstAux p s f = some i →
      p i = true ∧ s ≤ i ∧ i < s + f ∧ ∀ j, s ≤ j → j < i → p j = false := by
  intro f
  induction f with
  | zero => intro s i h; simp [findFirstAux] at h
  | succ f ih =>
    intro s i h
    rw [findFirstAux] at h
    by_cases hp : p s = true
    · rw [if_pos hp] at h
      injection h with h2
      subst h2
      exact ⟨hp, Nat.le_refl s, by omega, fun j hj hji => by omega⟩
    · rw [if_neg hp] at h
      obtain ⟨h1, h2, h3, h4⟩ := ih h
      refine ⟨h1, by omega, by omega, fun j hj hji => ?_⟩
      rcases Nat.eq_or_lt_of_le hj with rfl | hlt
      · simpa using hp
      · exact h4 j (by omega) hji

theorem substrAt_iff {pat t : List Char} {i : Nat} :
    substrAt pat t i = true ↔ (t.drop i).take pat.length = pat := by
  simp [substrAt]

theorem substrAt_bound {pat t : List Char} {i : Nat} (hp : pat ≠ [])
    (h : substrAt pat t i = true) : i + pat.length ≤ t.length := by
  rw [substrAt_iff] at h
  have hlen := congrArg List.length h
  simp only [List.length_take, List.length_drop] at hlen
  have h2 := Nat.min_le_right pat.length (t.length - i)
  rw [hlen] at h2
  have hp' : 0 < pat.length := List.length_pos.mpr hp
  omega

theorem substrAt_decomp {pat t : List Char} {i : Nat} (h : substrAt pat t i = true) :
    t.drop i = pat ++ t.drop (i + pat.length) := by
  rw [substrAt_iff] at h
  conv_lhs => rw [← List.take_append_drop pat.length (t.drop i)]
  rw [h, List.drop_drop]

theorem substrAt_extend_right {pat u v : List Char} {j : Nat} (h : substrAt pat u j = true)
    (hb : j + pat.length ≤ u.length) : substrAt pat (u ++ v) j = true := by
  rw [substrAt_iff] at h ⊢
  rw [List.drop_append_of_le_length (by omega),
    List.take_append_of_le_length (by simp [List.length_drop]; omega), h]

theorem substrAt_append_at (pat u v : List Char) :
    substrAt pat (u ++ (pat ++ v)) u.length = true := by
  rw [substrAt_iff, List.drop_left]
  exact List.take_left pat v

theorem filter_range_eq_single {i n : Nat} (h : i < n) :
    (List.range n).filter (fun j => decide (j = i)) = [i] := by
  induction n with
  | zero => omega
  | succ n ih =>
    rw [List.range_succ, List.filter_append]
    by_cases hi : i < n
    · rw [ih hi]
      have : ¬(n = i) := by omega
      simp [this]
    · have hin : i = n := by omega
      subst hin
      have hnil : (List.range i).filter (fun j => decide (j = i)) = [] := by
        rw [List.filter_eq_nil_iff]
        intro a ha
        simp only [List.mem_range] at ha
        simp
        omega
      rw [hnil]
      simp

/-- Claim C5: the Transcript Normalizer's stop-phrase truncation keeps
the content preceding the first occurrence of the stop phrase followed
by the stop phrase itself exactly once, discarding everything after that
first occurrence; when the stop phrase never occurs the truncation step
returns the text unmodified. -/
theorem claim_C5_stop_truncation (t : List Char) :
    ((∀ j, substrAt stop_phrase t j = false) → truncate_at_stop t = t) ∧
    (∀ i, firstSubstr stop_phrase t = some i →
      truncate_at_stop t = t.take i ++ stop_phrase ∧
      (∀ j, j < i → substrAt stop_phrase t j = false) ∧
      countSubstr stop_phrase (truncate_at_stop t) = 1) := by
  constructor
  · intro hno
    unfold truncate_at_stop
    cases hfs : firstSubstr stop_phrase t with
    | none => rfl
    | some i =>
      have h := findFirstAux_eq_some hfs
      exact absurd h.1 (by simp [hno i])
  · intro i hfs
    obtain ⟨hpi, -, hibound, hmin⟩ := findFirstAux_eq_some hfs
    have hstop : stop_phrase ≠ [] := by decide
    have hb : i + stop_phrase.length ≤ t.length := substrAt_bound hstop hpi
    have htr : truncate_at_stop t = t.take i ++ stop_phrase := by
      unfold truncate_at_stop
      rw [hfs]
    have hulen : (t.take i).length = i := by
      rw [List.length_take]
      omega
    have hlen : (t.take i ++ stop_phrase).length = i + stop_phrase.length := by
      rw [List.length_append, hulen]
    refine ⟨htr, fun j hj => hmin j (Nat.zero_le j) hj, ?_⟩
    rw [htr]
    unfold countSubstr
    rw [hlen]
    have hat : substrAt stop_phrase (t.take i ++ stop_phrase) i = true := by
      have h0 := substrAt_append_at stop_phrase (t.take i) []
      rw [List.append_nil, hulen] at h0
      exact h0
    have hpt : ∀ j ∈ List.range (i + stop_phrase.length + 1),
        substrAt stop_phrase (t.take i ++ stop_phrase) j = decide (j = i) := by
      intro j hjr
      rw [Bool.eq_iff_iff]
      simp only [decide_eq_true_eq]
      constructor
      · intro hocc
        have hjb := substrAt_bound hstop hocc
        rw [hlen] at hjb
        rcases Nat.lt_or_ge j i with hlt | hge
        · exfalso
          have hlift : substrAt stop_phrase t j = true := by
            have hdec : t = (t.take i ++ stop_phrase) ++ t.drop (i + stop_phrase.length) := by
              conv_lhs => rw [← List.take_append_drop i t]
              rw [substrAt_decomp hpi, List.append_assoc]
            rw [hdec]
            exact substrAt_extend_right hocc (by rw [hlen]; omega)
          exact absurd hlift (by simp [hmin j (Nat.zero_le j) hlt])
        · omega
      · intro hji
        subst hji
        exact hat
    rw [List.filter_congr hpt, filter_range_eq_single (by omega)]
    rfl

/-- Witness for C5: the concrete looped IVR transcript, whose first
stop-phrase occurrence starts at index 12. -/
theorem claim_C5_witness :
    truncate_at_stop loopTranscript = loopTranscript.take 12 ++ stop_phrase ∧
    countSubstr stop_phrase (truncate_at_stop loopTranscript) = 1 := by
  have h := (claim_C5_stop_truncation loopTranscript).2 12 (by decide)
  exact ⟨h.1, h.2.2⟩

theorem valid_colors_nodup : VALID_COLORS.Nodup := by decide

theorem valid_colors_upper_nodup : (VALID_COLORS.map pyUpper).Nodup := by decide

theorem valid_colors_alpha : ∀ c ∈ VALID_COLORS, c.data.all (fun ch => ch.isAlpha) = true := by
  decide

theorem pyUpper_inj_on {a b : String} (ha : a ∈ VALID_COLORS) (hb : b ∈ VALID_COLORS)
    (h : pyUpper a = pyUpper b) : a = b :=
  List.inj_on_of_nodup_map valid_colors_upper_nodup ha hb h

theorem firstWordMatch_eq_some {pat t : List Char} {i : Nat}
    (h : firstWordMatch pat t = some i) :
    wordMatchAt pat t i = true ∧ ∀ j < i, wordMatchAt pat t j = false := by
  unfold firstWordMatch at h
  have h2 := findFirstAux_eq_some h
  exact ⟨h2.1, fun j hj => h2.2.2.2 j (Nat.zero_le j) hj⟩

theorem dedupPairs_sublist : ∀ (l : List (Nat × String)) (seen : List String),
    List.Sublist (dedupPairs l seen) l := by
  intro l
  induction l with
  | nil => intro seen; simp [dedupPairs]
  | cons p rest ih =>
    intro seen
    rw [dedupPairs]
    split
    · exact (ih seen).trans (List.sublist_cons_self p rest)
    · exact (ih (p.2 :: seen)).cons₂ p

theorem dedupPairs_not_seen : ∀ (l : List (Nat × String)) (seen : List String),
    ∀ p ∈ dedupPairs l seen, p.2 ∉ seen := by
  intro l
  induction l with
  | nil => intro seen p hp; simp [dedupPairs] at hp
  | cons q rest ih =>
    intro seen p hp
    rw [dedupPairs] at hp
    split at hp
    · exact ih seen p hp
    · rcases List.mem_cons.mp hp with rfl | hmem
      · assumption
      · intro hcon
        exact ih (q.2 :: seen) p hmem (List.mem_cons_of_mem _ hcon)

theorem dedupPairs_pairwise_ne : ∀ (l : List (Nat × String)) (seen : List String),
    (dedupPairs l seen).Pairwise (fun a b => a.2 ≠ b.2) := by
  intro l
  induction l with
  | nil => intro seen; simp [dedupPairs]
  | cons q rest ih =>
    intro seen
    rw [dedupPairs]
    split
    · exact ih seen
    · refine List.pairwise_cons.mpr ⟨?_, ih (q.2 :: seen)⟩
      intro p hp heq
      exact dedupPairs_not_seen rest (q.2 :: seen) p hp (heq ▸ List.mem_cons_self q.2 seen)

theorem wordMatchAt_unique_le {a b : String} (hb : b ∈ VALID_COLORS)
    {t : List Char} {i : Nat} (hma : wordMatchAt a.data t i = true)
    (hmb : wordMatchAt b.data t i = true) (hle : a.data.length ≤ b.data.length) : a = b := by
  have hsa0 : substrAt a.data t i = true := by
    simp only [wordMatchAt, Bool.and_eq_true] at hma
    exact hma.1.1
  have hsb0 : substrAt b.data t i = true := by
    simp only [wordMatchAt, Bool.and_eq_true] at hmb
    exact hmb.1.1
  have hafter : wordChar (charAtD t (i + a.data.length)) = false := by
    simp only [wordMatchAt, Bool.and_eq_true, Bool.not_eq_true'] at hma
    exact hma.2
  have hsa := substrAt_iff.mp hsa0
  have hsb := substrAt_iff.mp hsb0
  rcases Nat.eq_or_lt_of_le hle with heq | hlt
  · have hdata : a.data = b.data := by
      rw [← hsa, heq, hsb]
    cases a
    cases b
    exact congrArg String.mk hdata
  · exfalso
    have hchar : charAtD t (i + a.data.length) ∈ b.data := by
      unfold charAtD
      rw [← List.drop_drop, substrAt_decomp hsb0,
        List.drop_append_of_le_length (by omega)]
      have hne : b.data.drop a.data.length ≠ [] := by
        intro hnil
        have hl := congrArg List.length hnil
        simp only [List.length_drop, List.length_nil] at hl
        omega
      obtain ⟨x, xs, hx⟩ := List.exists_cons_of_ne_nil hne
      rw [hx]
      simp only [List.cons_append, List.headD_cons]
      exact List.mem_of_mem_drop (hx ▸ List.mem_cons_self x xs)
    have halpha := valid_colors_alpha b hb
    rw [List.all_eq_true] at halpha
    have hA := halpha _ hchar
    simp only at hA
    have hwc : wordChar (charAtD t (i + a.data.length)) = true := by
      unfold wordChar Char.isAlphanum
      simp only [hA, Bool.true_or]
    rw [hwc] at hafter
    exact absurd hafter (by simp)

theorem wordMatchAt_unique {a b : String} (ha : a ∈ VALID_COLORS) (hb : b ∈ VALID_COLORS)
    {t : List Char} {i : Nat} (hma : wordMatchAt a.data t i = true)
    (hmb : wordMatchAt b.data t i = true) : a = b := by
  rcases Nat.le_total a.data.length b.data.length with h | h
  · exact wordMatchAt_unique_le hb hma hmb h
  · exact (wordMatchAt_unique_le ha hmb hma h).symm

theorem mem_colorPositions {t : List Char} {p : Nat × String} (hp : p ∈ colorPositions t) :
    p.2 ∈ VALID_COLORS ∧ firstWordMatch p.2.data t = some p.1 := by
  unfold colorPositions at hp
  rw [List.mem_filterMap] at hp
  obtain ⟨c, hc, hmap⟩ := hp
  cases hfm : firstWordMatch c.data t with
  | none => rw [hfm] at hmap; simp at hmap
  | some i =>
    rw [hfm, Option.map_some'] at hmap
    injection hmap with h2
    subst h2
    exact ⟨hc, hfm⟩

theorem dedup_spec {nt : List Char} {src : List (Nat × String)}
    (hsorted : src.Pairwise posLe)
    (hsrc : ∀ p ∈ src, p.2 ∈ VALID_COLORS ∧ firstWordMatch p.2.data nt = some p.1) :
    ((dedupPairs src []).map (fun p => pyUpper p.2)).Nodup ∧
    (dedupPairs src []).Pairwise (fun a b => a.1 < b.1) ∧
    ∀ p ∈ dedupPairs src [], p.2 ∈ VALID_COLORS ∧ firstWordMatch p.2.data nt = some p.1 := by
  have hmem : ∀ p ∈ dedupPairs src [],
      p.2 ∈ VALID_COLORS ∧ firstWordMatch p.2.data nt = some p.1 :=
    fun p hp => hsrc p ((dedupPairs_sublist src []).subset hp)
  have hpw_le : (dedupPairs src []).Pairwise posLe :=
    List.Pairwise.sublist (dedupPairs_sublist src []) hsorted
  have hpw_ne := dedupPairs_pairwise_ne src []
  have hpw_lt : (dedupPairs src []).Pairwise (fun a b => a.1 < b.1) := by
    refine (hpw_le.and hpw_ne).imp_of_mem ?_
    intro a b ha hb hR
    rcases Nat.lt_or_ge a.1 b.1 with h | h
    · exact h
    · exfalso
      have heq : a.1 = b.1 := Nat.le_antisymm hR.1 h
      obtain ⟨haV, hfa⟩ := hmem a ha
      obtain ⟨hbV, hfb⟩ := hmem b hb
      have hwa := (firstWordMatch_eq_some hfa).1
      have hwb := (firstWordMatch_eq_some hfb).1
      rw [heq] at hwa
      exact hR.2 (wordMatchAt_unique haV hbV hwa hwb)
  refine ⟨?_, hpw_lt, hmem⟩
  have hup : (dedupPairs src []).Pairwise (fun a b => pyUpper a.2 ≠ pyUpper b.2) := by
    refine hpw_ne.imp_of_mem ?_
    intro a b ha hb hne hequ
    exact hne (pyUpper_inj_on (hmem a ha).1 (hmem b hb).1 hequ)
  exact List.pairwise_map.mpr hup

theorem extract_colors_spec (s : String) :
    (extract_colors s).Nodup ∧
    ∃ ps : List (Nat × String),
      extract_colors s = ps.map (fun p => pyUpper p.2) ∧
      ps.Pairwise (fun a b => a.1 < b.1) ∧
      ∀ p ∈ ps, p.2 ∈ VALID_COLORS ∧
        firstWordMatch p.2.data (normalize_common_mishears s).data = some p.1 := by
  by_cases hs : s = ""
  · subst hs
    exact ⟨by simp [extract_colors], [], by simp [extract_colors], List.Pairwise.nil, by simp⟩
  · have hsorted :
        ((colorPositions (normalize_common_mishears s).data).insertionSort posLe).Pairwise posLe :=
      List.sorted_insertionSort posLe _
    have hsrc : ∀ p ∈ (colorPositions (normalize_common_mishears s).data).insertionSort posLe,
        p.2 ∈ VALID_COLORS ∧
          firstWordMatch p.2.data (normalize_common_mishears s).data = some p.1 := by
      intro p hp
      rw [List.mem_insertionSort] at hp
      exact mem_colorPositions hp
    obtain ⟨h1, h2, h3⟩ := dedup_spec hsorted hsrc
    have hext : extract_colors s =
        (dedupPairs ((colorPositions (normalize_common_mishears s).data).insertionSort posLe)
            []).map (fun p => pyUpper p.2) := by
      simp [extract_colors, hs]
    exact ⟨hext ▸ h1, _, hext, h2, h3⟩

/-- Claim C6: for every input text, the Color Matcher's output has no
duplicate color names and is ordered by the first character offset at
which each color occurs (as a whole word) in the normalized text, not by
vocabulary order: the output is the image of a position-color list that
is strictly increasing in offset, where each offset is the color's first
whole-word occurrence. -/
theorem claim_C6_ordered_nodup (s : String) :
    (extract_colors s).Nodup ∧
    ∃ ps : List (Nat × String),
      extract_colors s = ps.map (fun p => pyUpper p.2) ∧
      ps.Pairwise (fun a b => a.1 < b.1) ∧
      ∀ p ∈ ps, p.2 ∈ VALID_COLORS ∧
        firstWordMatch p.2.data (normalize_common_mishears s).data = some p.1 :=
  extract_colors_spec s

/-- Witness for C6 at a concrete transcript in which the vocabulary
order (amber before mint before pearl) differs from occurrence order. -/
theorem claim_C6_witness :
    (extract_colors "pearl then mint then amber").Nodup ∧
    extract_colors "pearl then mint then amber" = ["PEARL", "MINT", "AMBER"] :=
  ⟨(claim_C6_ordered_nodup "pearl then mint then amber").1, by decide⟩

/-- Claim C7: color matching respects whole-word boundaries:
`"platinumfoil"` yields no match at all, and any color present in the
output has an actual whole-word occurrence (word boundary on both sides)
in the normalized text. -/
theorem claim_C7_word_boundaries :
    extract_colors "platinumfoil" = [] ∧
    ∀ (t c : String), c ∈ VALID_COLORS → pyUpper c ∈ extract_colors t →
      ∃ i, wordMatchAt c.data (normalize_common_mishears t).data i = true := by
  refine ⟨by decide, ?_⟩
  intro t c hc hmem
  obtain ⟨-, ps, hext, -, hps⟩ := extract_colors_spec t
  rw [hext, List.mem_map] at hmem
  obtain ⟨p, hp, hpu⟩ := hmem
  obtain ⟨hpV, hfm⟩ := hps p hp
  have hcp : c = p.2 := pyUpper_inj_on hc hpV hpu.symm
  exact ⟨p.1, by rw [hcp]; exact (firstWordMatch_eq_some hfm).1⟩

/-- Witness for C7: `"platinumfoil"` matches nothing, while `"red"` in
`"a red car"` is backed by a whole-word occurrence. -/
theorem claim_C7_witness :
    extract_colors "platinumfoil" = [] ∧
    ∃ i, wordMatchAt "red".data (normalize_common_mishears "a red car").data i = true :=
  ⟨claim_C7_word_boundaries.1,
   claim_C7_word_boundaries.2 "a red car" "red" (by decide) (by decide)⟩

/-- Claim C10: `extract_colors` of `None` or the empty string is the
empty list, and every element of any output is the uppercase form of a
fixed-vocabulary entry — never a raw transcript word outside the
vocabulary. -/
theorem claim_C10_vocab_closed :
    extractColorsOpt none = [] ∧ extract_colors "" = [] ∧
    ∀ (s u : String), u ∈ extract_colors s → u ∈ VALID_COLORS.map pyUpper := by
  refine ⟨rfl, by simp [extract_colors], ?_⟩
  intro s u hu
  obtain ⟨-, ps, hext, -, hps⟩ := extract_colors_spec s
  rw [hext, List.mem_map] at hu
  obtain ⟨p, hp, hpu⟩ := hu
  rw [List.mem_map]
  exact ⟨p.2, (hps p hp).1, hpu⟩

/-- Witness for C10: the single output element of a concrete run is an
uppercased vocabulary entry. -/
theorem claim_C10_witness : "RED" ∈ VALID_COLORS.map pyUpper :=
  claim_C10_vocab_closed.2.2 "a red car" "RED" (by decide)

/-- Counterexample to C1: the guard does not implement a per-recording
`admit`.  With no send recorded (in memory or in the log), two
consecutive calls — as produced by a redelivered webhook for the same
recording identifier — both return `true`; the guard takes no recording
identifier at all and does not mark state when admitting. -/
theorem claim_C1_counterexample :
    (should_send_today_guard none "2025-06-01" (Except.ok none)).1 = true ∧
    (should_send_today_guard
        (should_send_today_guard none "2025-06-01" (Except.ok none)).2
        "2025-06-01" (Except.ok none)).1 = true := by decide

/-- Claim C1 amended: the guard is keyed by calendar day, not recording
identifier.  It returns false exactly when a successful send is already
recorded for today — in memory (`st = some today`) or in the persistence
log (a last row whose nonempty date starts with today) — and true
otherwise.  Admitting does not update the guard state, so a repeat call
before any successful send admits again; a rejected run performs no
download and no sends; and only a run that actually sent marks the day. -/
theorem claim_C1_amended (st : Option String) (env : PipelineEnv) :
    ((should_send_today_guard st env.today env.sheetsLatest).1 = false ↔
      (st = some env.today ∨
        ∃ d x, env.sheetsLatest = Except.ok (some (d, x)) ∧
          ¬d = "" ∧ startsWithStr env.today d = true)) ∧
    ((should_send_today_guard st env.today env.sheetsLatest).1 = true →
      (should_send_today_guard (should_send_today_guard st env.today env.sheetsLatest).2
          env.today env.sheetsLatest).1 = true) ∧
    (st = some env.today → (should_send_today_guard st env.today env.sheetsLatest).1 = false) ∧
    ((should_send_today_guard st env.today env.sheetsLatest).1 = false →
      (process_recording_with_whisper st env).downloaded = false ∧
      (process_recording_with_whisper st env).sends = []) ∧
    ((process_recording_with_whisper st env).sends ≠ [] →
      (process_recording_with_whisper st env).lastSentAfter = some env.today) := by
  refine ⟨?_, ?_, ?_, ?_, ?_⟩
  · unfold should_send_today_guard
    by_cases h1 : st = some env.today
    · simp [h1]
    · simp only [if_neg h1]
      cases hsl : env.sheetsLatest with
      | error u => simp [h1]
      | ok o =>
        cases o with
        | none => simp [h1]
        | some pr =>
          obtain ⟨d0, x0⟩ := pr
          by_cases hd : (!decide (d0 = "") && startsWithStr env.today d0) = true
          · have hd2 := hd
            simp only [Bool.and_eq_true, Bool.not_eq_true', decide_eq_false_iff_not] at hd2
            constructor
            · intro _
              exact Or.inr ⟨d0, x0, rfl, hd2.1, hd2.2⟩
            · intro _
              simp [hd]
          · constructor
            · intro hfalse
              simp [hd] at hfalse
            · intro hor
              exfalso
              rcases hor with h | ⟨d, x, heq, hne, hsw⟩
              · exact h1 h
              · injection heq with heq2
                injection heq2 with heq3
                injection heq3 with hde hxe
                subst hde
                exact hd (by simp [hne, hsw])
  · unfold should_send_today_guard
    by_cases h1 : st = some env.today
    · simp [h1]
    · simp only [if_neg h1]
      cases hsl : env.sheetsLatest with
      | error u => simp [h1]
      | ok o =>
        cases o with
        | none => simp [h1]
        | some pr =>
          obtain ⟨d, x⟩ := pr
          by_cases hd : (!decide (d = "") && startsWithStr env.today d) = true
          · simp [h1, hd]
          · simp [h1, hd]
  · intro h1
    unfold should_send_today_guard
    simp [h1]
  · intro h
    unfold process_recording_with_whisper
    simp [h]
  · intro h
    by_cases hg : (should_send_today_guard st env.today env.sheetsLatest).1 = true
    · unfold process_recording_with_whisper at h ⊢
      simp only [hg, Bool.not_true, Bool.false_eq_true, if_false] at h ⊢
      cases hdl : env.download with
      | error u => simp [hdl] at h
      | ok u =>
        cases htr : env.transcribe with
        | error v => simp [hdl, htr] at h
        | ok text =>
          by_cases hpre : startsWithStr "__OPENAI_ERROR__" text = true
          · simp [hdl, htr, hpre] at h
          · by_cases hemp : (extract_colors text).isEmpty = true
            · simp [hdl, htr, hpre, hemp] at h
            · simp [hdl, htr, hpre, hemp]
    · exfalso
      have hg' : (should_send_today_guard st env.today env.sheetsLatest).1 = false := by
        simpa using hg
      have hempty : (process_recording_with_whisper st env).sends = [] := by
        unfold process_recording_with_whisper
        simp [hg']
      exact h hempty

/-- Witness for the amended C1: a run whose persistence log already
holds a today-dated record is rejected even with a cold in-memory state,
and a state already marked in memory for today is rejected too. -/
theorem claim_C1_witness :
    (should_send_today_guard none envLogToday.today envLogToday.sheetsLatest).1 = false ∧
    (should_send_today_guard (some "2025-06-01") envNoColors.today
      envNoColors.sheetsLatest).1 = false :=
  ⟨(claim_C1_amended none envLogToday).1.mpr
      (Or.inr ⟨"2025-06-01", "colors red", rfl, by decide, by decide⟩),
   (claim_C1_amended (some "2025-06-01") envNoColors).1.mpr (Or.inl rfl)⟩

/-- Counterexample to C2: when the guard's persistence read raises and
the in-memory date does not block, the pipeline proceeds and performs
subscriber sends — it fails open, not closed. -/
theorem claim_C2_counterexample :
    envFailOpen.sheetsLatest = Except.error () ∧
    (process_recording_with_whisper none envFailOpen).sends ≠ [] := by
  refine ⟨rfl, ?_⟩
  decide

/-- Claim C2 amended: on a raising persistence read the guard swallows
the exception and falls back to the in-memory check alone: if the
in-memory date already equals today the run sends nothing (and downloads
nothing), but otherwise the guard admits exactly as if the log were
empty, and the run may send. -/
theorem claim_C2_amended (st : Option String) (env : PipelineEnv)
    (herr : env.sheetsLatest = Except.error ()) :
    (st = some env.today →
      (process_recording_with_whisper st env).sends = [] ∧
      (process_recording_with_whisper st env).downloaded = false) ∧
    (should_send_today_guard st env.today env.sheetsLatest).1 = !decide (st = some env.today) := by
  constructor
  · intro h1
    have hg : (should_send_today_guard st env.today env.sheetsLatest).1 = false := by
      unfold should_send_today_guard
      simp [h1]
    unfold process_recording_with_whisper
    simp [hg]
  · unfold should_send_today_guard
    rw [herr]
    by_cases h1 : st = some env.today
    · simp [h1]
    · simp [h1]

/-- Witness for the amended C2: with the log unreachable and the
in-memory date equal to today, the run sends nothing. -/
theorem claim_C2_witness :
    (process_recording_with_whisper (some "2025-06-01") envFailOpen).sends = [] ∧
    (process_recording_with_whisper (some "2025-06-01") envFailOpen).downloaded = false :=
  (claim_C2_amended (some "2025-06-01") envFailOpen rfl).1 rfl

/-- Counterexample to C3: `app.py`'s fan-out applies no testing-center
(or active) filter: a subscriber whose stored testing center differs
from the announcement's hard-coded center still receives the send. -/
theorem claim_C3_counterexample :
    subMismatch.testing_center ≠ app_testing_center ∧
    SendEvent.emailMsg "ada@example.com" "subj" "Hello Ada,\n\nbody\n" ∈
      send_to_all_subscribers (Except.ok [subMismatch]) "subj" "body" "sms" := by
  refine ⟨by decide, by decide⟩

/-- Claim C3 amended: the center/active filter exists only in
`transcribe_and_log.py`'s fan-out: every address in its send list comes
from a subscriber row whose testing center matches the run's center and
whose active cell is `YES`; `app.py`'s `send_to_all_subscribers` applies
no such filter. -/
theorem claim_C3_amended (center : String) (rows : List (List String)) (e : String)
    (he : e ∈ emailsFromRows center rows) :
    ∃ r ∈ rows, r.length ≥ 5 ∧ pyStrip (r.getD 1 "") = e ∧ e ≠ "" ∧
      pyStrip (r.getD 3 "") = center ∧ pyUpper (pyStrip (r.getD 4 "")) = "YES" := by
  unfold emailsFromRows at he
  rw [List.mem_map] at he
  obtain ⟨r, hr, hre⟩ := he
  rw [List.mem_filter] at hr
  obtain ⟨hrow, hpred⟩ := hr
  simp only [Bool.and_eq_true, decide_eq_true_eq, Bool.not_eq_true',
    decide_eq_false_iff_not] at hpred
  refine ⟨r, hrow, hpred.1.1.1, hre, ?_, hpred.1.2, hpred.2⟩
  intro hcon
  exact hpred.1.1.2 (hre.trans hcon)

/-- Witness for the amended C3 on concrete rows with one active and one
inactive subscriber. -/
theorem claim_C3_witness :
    ∃ r ∈ rowsEx, r.length ≥ 5 ∧ pyStrip (r.getD 1 "") = "ada@example.com" ∧
      "ada@example.com" ≠ "" ∧ pyStrip (r.getD 3 "") = "CTR" ∧
      pyUpper (pyStrip (r.getD 4 "")) = "YES" :=
  claim_C3_amended "CTR" rowsEx "ada@example.com" (by decide)

/-- Counterexample to C4: a successful transcription with no detected
colors is treated as a failure: the run notifies the admin only,
persists nothing, and sends no subscriber message at all — in
particular no no-color-day message, and no Transcription Record with an
empty color list is appended. -/
theorem claim_C4_counterexample :
    extract_colors "hello world" = [] ∧
    (process_recording_with_whisper none envNoColors).adminNotified = true ∧
    (process_recording_with_whisper none envNoColors).saved = [] ∧
    (process_recording_with_whisper none envNoColors).sends = [] := by decide

/-- Claim C4 amended: for every admitted run whose transcription
succeeds (no error payload) but whose extracted color list is empty, the
pipeline notifies the admin only: nothing is persisted and nothing is
sent to subscribers; the no-color-day template is never exercised by the
pipeline. -/
theorem claim_C4_amended (st : Option String) (env : PipelineEnv) (text : String)
    (hguard : (should_send_today_guard st env.today env.sheetsLatest).1 = true)
    (hdl : env.download = Except.ok ())
    (htx : env.transcribe = Except.ok text)
    (hpre : startsWithStr "__OPENAI_ERROR__" text = false)
    (hcol : extract_colors text = []) :
    (process_recording_with_whisper st env).adminNotified = true ∧
    (process_recording_with_whisper st env).saved = [] ∧
    (process_recording_with_whisper st env).sends = [] := by
  unfold process_recording_with_whisper
  simp [hguard, hdl, htx, hpre, hcol]

/-- Witness for the amended C4 at the concrete colorless run. -/
theorem claim_C4_witness :
    (process_recording_with_whisper none envNoColors).adminNotified = true ∧
    (process_recording_with_whisper none envNoColors).saved = [] ∧
    (process_recording_with_whisper none envNoColors).sends = [] :=
  claim_C4_amended none envNoColors "hello world" (by decide) rfl rfl (by decide) (by decide)

/-- Claim C8: the Announcement Formatter is deterministic in its inputs
— the ambient clock reaches the output only through the rendered date
line, so equal dates give identical subject/body/SMS for any color list
— and it is total on the edge cases: an empty color list renders the
`NO CODES CONFIRMED` body (the fallback text occurs in the body), and
the notification templates return their fixed subjects for every input,
including an empty (missing) phone number and non-ASCII text. -/
theorem claim_C8_formatter_pure :
    (∀ (dta dtb : DateTimeCST) (colors : List String),
        day_and_date_line dta = day_and_date_line dtb →
        build_announcement_message dta colors = build_announcement_message dtb colors) ∧
    (∀ dt : DateTimeCST, ∃ j,
        substrAt "NO CODES CONFIRMED".data (build_announcement_message dt []).2.1.data j
          = true) ∧
    (∀ d tc ph, (no_color_day_notification d tc ph).1 =
        "ℹ️ ColorCodely Update — No Color Codes Announced Today") ∧
    (∀ d tc ph cc, (color_day_notification d tc ph cc).1 =
        "ColorCodely Notification for City of Huntsville, AL Municipal Court Probation Office") := by
  refine ⟨?_, ?_, ?_, ?_⟩
  · intro dta dtb colors h
    unfold build_announcement_message
    rw [h]
  · intro dt
    have hdata : (build_announcement_message dt []).2.1.data =
        ((day_and_date_line dt).data ++ "\n\nTESTING CENTER:\n".data ++
            app_testing_center.data ++
            "\n\nThe color codes announced at 256-427-7808 are:\n".data) ++
          ("NO CODES CONFIRMED".data ++ []) := by
      simp [build_announcement_message, List.append_assoc]
    refine ⟨((day_and_date_line dt).data ++ "\n\nTESTING CENTER:\n".data ++
      app_testing_center.data ++
      "\n\nThe color codes announced at 256-427-7808 are:\n".data).length, ?_⟩
    rw [hdata]
    exact substrAt_append_at _ _ []
  · intro d tc ph
    rfl
  · intro d tc ph cc
    rfl

/-- Witness for C8: two differently-cased datetimes with the same
rendered date line yield identical announcements, and the no-color-day
template accepts a missing phone number and non-ASCII center name. -/
theorem claim_C8_witness :
    build_announcement_message dt0 ["RED"] = build_announcement_message dtLowerSat ["RED"] ∧
    (no_color_day_notification "2025-06-01" "Centro de Pruebas — Ciudad" "").1 =
      "ℹ️ ColorCodely Update — No Color Codes Announced Today" :=
  ⟨claim_C8_formatter_pure.1 dt0 dtLowerSat ["RED"] (by decide),
   claim_C8_formatter_pure.2.2.1 "2025-06-01" "Centro de Pruebas — Ciudad" ""⟩

/-- Counterexample to C9: in `send_transcription_email.py`'s loop a
raising send aborts the whole loop: with three recipients and the second
raising, only the first is delivered — the third, whose own send would
not fail, is never attempted, and no per-subscriber outcome list exists. -/
theorem claim_C9_counterexample :
    send_loop failsSecond ["a@x.com", "b@x.com", "c@x.com"] = ["a@x.com"] ∧
    failsSecond "c@x.com" = false := by decide

/-- Claim C9 amended: `send_transcription_email.py` delivers exactly the
longest failure-free prefix of the recipient list (everything from the
first raising send on is lost, and the result is not a per-subscriber
outcome list), while `app.py`'s fan-out dispatches every subscriber's
sends independently of the surrounding subscribers. -/
theorem claim_C9_amended (fails : String → Bool) (emails : List String)
    (l1 l2 : List SubscriberRec) (subject eb sb : String) :
    (∃ k, send_loop fails emails = emails.take k ∧
      (∀ e ∈ emails.take k, fails e = false) ∧
      (k = emails.length ∨ fails (emails.getD k "") = true)) ∧
    send_to_all_subscribers (Except.ok (l1 ++ l2)) subject eb sb =
      send_to_all_subscribers (Except.ok l1) subject eb sb ++
        send_to_all_subscribers (Except.ok l2) subject eb sb := by
  constructor
  · induction emails with
    | nil => exact ⟨0, rfl, by simp, Or.inl rfl⟩
    | cons e rest ih =>
      by_cases hf : fails e = true
      · refine ⟨0, ?_, by simp, Or.inr ?_⟩
        · simp [send_loop, hf]
        · simpa using hf
      · have hf' : fails e = false := by simpa using hf
        obtain ⟨k, h1, h2, h3⟩ := ih
        refine ⟨k + 1, ?_, ?_, ?_⟩
        · simp [send_loop, hf', h1]
        · intro x hx
          rw [List.take_succ_cons] at hx
          rcases List.mem_cons.mp hx with rfl | hmem
          · exact hf'
          · exact h2 x hmem
        · rcases h3 with h3 | h3
          · exact Or.inl (by simp [h3])
          · exact Or.inr (by simpa using h3)
  · unfold send_to_all_subscribers
    simp

/-- Witness for the amended C9 at the concrete aborting run. -/
theorem claim_C9_witness :
    ∃ k, send_loop failsSecond ["a@x.com", "b@x.com", "c@x.com"] =
        (["a@x.com", "b@x.com", "c@x.com"] : List String).take k ∧
      (∀ e ∈ (["a@x.com", "b@x.com", "c@x.com"] : List String).take k,
        failsSecond e = false) ∧
      (k = (["a@x.com", "b@x.com", "c@x.com"] : List String).length ∨
        failsSecond ((["a@x.com", "b@x.com", "c@x.com"] : List String).getD k "") = true) :=
  (claim_C9_amended failsSecond ["a@x.com", "b@x.com", "c@x.com"] [] [] "s" "b" "m").1
